import Mathlib

/-!
Shallow embedding of the FlyingCarpet transfer core (src/core/src/lib.rs and
src/core/src/linux/network.rs) and proofs about its handshake protocol,
common-folder computation, teardown, and orchestrator control flow.

Paths are modelled as lists of components (an absolute path carries a leading
root component), u64 wire values as Nat, and socket traffic of one side as an
explicit event trace of reads and writes.  Fallible I/O steps are oracles
recorded in an environment; the orchestrator threads them exactly in the order
of the source.
-/

namespace FlyingCarpet

/-- MAJOR_VERSION constant from lib.rs. -/
def MAJOR_VERSION : Nat := 9

/-- CHUNKSIZE constant from lib.rs (1 MB). -/
def CHUNKSIZE : Nat := 1000000

/-- A filesystem path, as its list of components.  The Rust `Path::components`
view of `/a/b/c.txt` is `[RootDir, a, b, c.txt]`; we keep the root as a
component so component counts agree with the source. -/
abbrev FsPath := List String

/-- Mode enum from lib.rs: `Send(Vec<PathBuf>)` or `Receive(PathBuf)`. -/
inductive Mode
  | Send (files : List FsPath)
  | Receive (dir : FsPath)
deriving DecidableEq, Repr

/-- Peer enum from lib.rs. -/
inductive Peer
  | Android
  | IOS
  | Linux
  | MacOS
  | Windows
deriving DecidableEq, Repr

/-- PeerResource enum from lib.rs: `WifiClient(String)` holds the gateway
address when we joined the peer's hotspot; the other two variants mean we are
hosting. -/
inductive PeerResource
  | WifiClient (gateway : String)
  | WindowsHotspot
  | LinuxHotspot
deriving DecidableEq, Repr

/-- Whether the resource variant is the connector (guest) side: exactly the
`WifiClient` arm of the `match peer_resource` statements in lib.rs. -/
def PeerResource.isConnector : PeerResource → Bool
  | .WifiClient _ => true
  | .WindowsHotspot => false
  | .LinuxHotspot => false

/-- is_hosting from linux/network.rs: Android/iOS/macOS peers always make the
Linux side host, a Windows peer always hosts itself, and between two Linux
machines the receiver hosts. -/
def is_hosting (peer : Peer) (mode : Mode) : Bool :=
  match peer with
  | .Android | .IOS | .MacOS => true
  | .Windows => false
  | .Linux =>
    match mode with
    | .Send _ => false
    | .Receive _ => true

/-- One u64 moving over the TCP stream, seen from one endpoint:
a write of `v` or a read that returned `v`. -/
inductive Ev
  | wr (v : Nat)
  | rd (v : Nat)
deriving DecidableEq, Repr

/-- The values an endpoint wrote, in order, extracted from its trace. -/
def writesOf : List Ev → List Nat
  | [] => []
  | Ev.wr v :: rest => v :: writesOf rest
  | Ev.rd _ :: rest => writesOf rest

/-- The values an endpoint read, in order, extracted from its trace. -/
def readsOf : List Ev → List Nat
  | [] => []
  | Ev.wr _ :: rest => readsOf rest
  | Ev.rd v :: rest => v :: readsOf rest

/-- The error message built in confirm_version when a verdict of 0 is
written or read (lib.rs lines 425 and 430): it asks the user to update. -/
def updateMsg (peer_version : Nat) : String :=
  ("Peer\x27s version " ++ toString peer_version ++ " not compatible, ")
    ++ "please update" ++ " Flying Carpet to the latest version on both devices."

/-- confirm_version from lib.rs, as a function of one endpoint.  `MV` is the
endpoint's MAJOR_VERSION, `is_compatible` its compatibility table (defined in
the crate's utils module), `input` the stream of u64 values the peer will send
it, in order.  Returns the Result together with the endpoint's wire trace.
The connector (`WifiClient`) writes its version then reads the peer's; a host
reads first then writes.  The side with the strictly higher version rules on
compatibility and writes the verdict; the other side reads it; equal versions
exchange no verdict. -/
def confirm_version (is_compatible : Nat → Bool) (MV : Nat)
    (peer_resource : PeerResource) (input : List Nat) :
    Except String Unit × List Ev :=
  match input with
  | [] =>
    -- the peer never sent its version: the read fails
    (Except.error "connection closed",
      if peer_resource.isConnector then [Ev.wr MV] else [])
  | peer_version :: rest =>
    let pre : List Ev :=
      if peer_resource.isConnector then [Ev.wr MV, Ev.rd peer_version]
      else [Ev.rd peer_version, Ev.wr MV]
    if peer_version < MV then
      -- we make the decision
      if is_compatible peer_version then
        (Except.ok (), pre ++ [Ev.wr 1])
      else
        (Except.error (updateMsg peer_version), pre ++ [Ev.wr 0])
    else if MV < peer_version then
      -- peer makes the decision
      match rest with
      | [] => (Except.error "connection closed", pre)
      | verdict :: _ =>
        if verdict = 0 then
          (Except.error (updateMsg peer_version), pre ++ [Ev.rd verdict])
        else
          (Except.ok (), pre ++ [Ev.rd verdict])
    else
      -- versions match, implicitly compatible
      (Except.ok (), pre)

/-- The u64 values the connector writes during the version leg when it runs
version `va` against a host at `vb`: its own version, then — only when it
holds the strictly higher version — the verdict it rules. -/
def connVersionWrites (ca : Nat → Bool) (va vb : Nat) : List Nat :=
  va :: (if vb < va then [if ca vb then 1 else 0] else [])

/-- The u64 values the host writes during the version leg: its own version,
then — only when it holds the strictly higher version — its verdict. -/
def hostVersionWrites (cb : Nat → Bool) (va vb : Nat) : List Nat :=
  vb :: (if va < vb then [if cb va then 1 else 0] else [])

/-- The mode code written on the wire: 1 for Send, 0 for Receive
(lib.rs lines 357-360). -/
def mode_code : Mode → Nat
  | .Send _ => 1
  | .Receive _ => 0

/-- Whether the mode is Send. -/
def Mode.isSend : Mode → Bool
  | .Send _ => true
  | .Receive _ => false

/-- The error message both sides build when the two modes match
(lib.rs lines 371-374 and 382-385). -/
def bothMsg (our_mode : Nat) : String :=
  "Both ends of the transfer selected "
    ++ (if our_mode = 0 then "receive" else "send")

/-- confirm_mode from lib.rs, as a function of one endpoint.  The connector
writes its mode code then reads the host's verdict, erring when the verdict
is not 1; the host reads the peer's code, compares it with its own, writes 0
and errs when they match, otherwise writes 1. -/
def confirm_mode (mode : Mode) (peer_resource : PeerResource)
    (input : List Nat) : Except String Unit × List Ev :=
  let our_mode := mode_code mode
  match peer_resource with
  | .WifiClient _ =>
    match input with
    | [] => (Except.error "connection closed", [Ev.wr our_mode])
    | verdict :: _ =>
      if verdict ≠ 1 then
        (Except.error (bothMsg our_mode), [Ev.wr our_mode, Ev.rd verdict])
      else
        (Except.ok (), [Ev.wr our_mode, Ev.rd verdict])
  | .WindowsHotspot | .LinuxHotspot =>
    match input with
    | [] => (Except.error "connection closed", [])
    | peer_mode :: _ =>
      if peer_mode = our_mode then
        (Except.error (bothMsg our_mode), [Ev.rd peer_mode, Ev.wr 0])
      else
        (Except.ok (), [Ev.rd peer_mode, Ev.wr 1])

/-- C1: in the version leg, the connector writes its u64 version first and
then reads the host's, while the host reads first and then writes; feeding
each side the other's writes is consistent (each side's writes are exactly
what the other consumes); verdict bytes are exchanged iff the versions
differ, in which case the side with the strictly higher version writes the
verdict (1 = compatible, 0 = not) and the other reads it; equal versions
exchange no verdict and both sides succeed; a verdict of 0 makes
confirm_version fail on both sides with a message asking the user to
update. -/
theorem confirm_version_protocol (ca cb : Nat → Bool) (va vb : Nat)
    (g : String) (hpr : PeerResource) (hh : hpr.isConnector = false) :
    (writesOf (confirm_version ca va (PeerResource.WifiClient g)
        (hostVersionWrites cb va vb)).2 = connVersionWrites ca va vb) ∧
    (writesOf (confirm_version cb vb hpr
        (connVersionWrites ca va vb)).2 = hostVersionWrites cb va vb) ∧
    ((confirm_version ca va (PeerResource.WifiClient g)
        (hostVersionWrites cb va vb)).2.take 2 = [Ev.wr va, Ev.rd vb]) ∧
    ((confirm_version cb vb hpr
        (connVersionWrites ca va vb)).2.take 2 = [Ev.rd va, Ev.wr vb]) ∧
    (va = vb →
      (confirm_version ca va (PeerResource.WifiClient g)
          (hostVersionWrites cb va vb)) = (Except.ok (), [Ev.wr va, Ev.rd vb]) ∧
      (confirm_version cb vb hpr
          (connVersionWrites ca va vb)) = (Except.ok (), [Ev.rd va, Ev.wr vb])) ∧
    (vb < va →
      ((confirm_version ca va (PeerResource.WifiClient g)
          (hostVersionWrites cb va vb)).2
        = [Ev.wr va, Ev.rd vb, Ev.wr (if ca vb then 1 else 0)]) ∧
      ((confirm_version cb vb hpr (connVersionWrites ca va vb)).2
        = [Ev.rd va, Ev.wr vb, Ev.rd (if ca vb then 1 else 0)]) ∧
      (ca vb = true →
        (confirm_version ca va (PeerResource.WifiClient g)
            (hostVersionWrites cb va vb)).1 = Except.ok () ∧
        (confirm_version cb vb hpr (connVersionWrites ca va vb)).1
          = Except.ok ()) ∧
      (ca vb = false →
        (confirm_version ca va (PeerResource.WifiClient g)
            (hostVersionWrites cb va vb)).1 = Except.error (updateMsg vb) ∧
        (confirm_version cb vb hpr (connVersionWrites ca va vb)).1
          = Except.error (updateMsg va))) ∧
    (va < vb →
      ((confirm_version cb vb hpr (connVersionWrites ca va vb)).2
        = [Ev.rd va, Ev.wr vb, Ev.wr (if cb va then 1 else 0)]) ∧
      ((confirm_version ca va (PeerResource.WifiClient g)
          (hostVersionWrites cb va vb)).2
        = [Ev.wr va, Ev.rd vb, Ev.rd (if cb va then 1 else 0)]) ∧
      (cb va = true →
        (confirm_version cb vb hpr (connVersionWrites ca va vb)).1
          = Except.ok () ∧
        (confirm_version ca va (PeerResource.WifiClient g)
            (hostVersionWrites cb va vb)).1 = Except.ok ()) ∧
      (cb va = false →
        (confirm_version cb vb hpr (connVersionWrites ca va vb)).1
          = Except.error (updateMsg va) ∧
        (confirm_version ca va (PeerResource.WifiClient g)
            (hostVersionWrites cb va vb)).1 = Except.error (updateMsg vb))) ∧
    (∀ pv : Nat, ∃ pre post : String,
      updateMsg pv = pre ++ "please update" ++ post) := by
  have hsplit : ∀ pv : Nat, ∃ pre post : String,
      updateMsg pv = pre ++ "please update" ++ post := by
    intro pv
    exact ⟨"Peer\x27s version " ++ toString pv ++ " not compatible, ",
      " Flying Carpet to the latest version on both devices.", rfl⟩
  have hwc : ∀ s : String, (PeerResource.WifiClient s).isConnector = true :=
    fun _ => rfl
  rcases Nat.lt_trichotomy va vb with hlt | heq | hgt
  · -- host has the higher version; host writes the verdict
    have h1 : ¬ vb < va := by omega
    have h2 : ¬ vb = va := by omega
    by_cases hcb : cb va <;>
      simp [confirm_version, hostVersionWrites, connVersionWrites,
        hwc, hh, hcb, writesOf, hlt, h1, h2, hsplit,
        Nat.lt_irrefl, Nat.lt_asymm hlt, Nat.ne_of_lt hlt, Nat.ne_of_gt hlt]
  · -- equal versions: no verdict
    subst heq
    simp [confirm_version, hostVersionWrites, connVersionWrites,
      hwc, hh, writesOf, hsplit, Nat.lt_irrefl]
  · -- connector has the higher version; connector writes the verdict
    have h1 : ¬ va < vb := by omega
    have h2 : ¬ va = vb := by omega
    by_cases hca : ca vb <;>
      simp [confirm_version, hostVersionWrites, connVersionWrites,
        hwc, hh, hca, writesOf, hgt, h1, h2, hsplit,
        Nat.lt_irrefl, Nat.lt_asymm hgt, Nat.ne_of_lt hgt, Nat.ne_of_gt hgt]

/-- C1 witness: the protocol theorem applied at versions 9 (connector)
against 7 (Linux-hotspot host), with compatibility table `8 ≤ v`. -/
theorem confirm_version_protocol_witness :
    writesOf (confirm_version (fun v => decide (8 ≤ v)) 9
        (PeerResource.WifiClient "192.168.137.1")
        (hostVersionWrites (fun v => decide (8 ≤ v)) 9 7)).2
      = connVersionWrites (fun v => decide (8 ≤ v)) 9 7 :=
  (confirm_version_protocol (fun v => decide (8 ≤ v)) (fun v => decide (8 ≤ v))
    9 7 "192.168.137.1" PeerResource.LinuxHotspot rfl).1

/-- C2: in the mode leg, the connector writes its mode code (1 = send,
0 = receive) and then reads a verdict; the host reads the peer's code,
compares it with its own, and writes 1 iff the codes differ; both sides
succeed iff exactly one side selected send; otherwise the connector errs on
reading a verdict other than 1, the host errs after writing 0, and both
messages are the literal "Both ends of the transfer selected send" (or
"receive"). -/
theorem confirm_mode_protocol (mc mh : Mode) (g : String)
    (hpr : PeerResource) (hh : hpr.isConnector = false) :
    ((confirm_mode mh hpr [mode_code mc]).2
      = [Ev.rd (mode_code mc),
         Ev.wr (if mode_code mc = mode_code mh then 0 else 1)]) ∧
    ((confirm_mode mc (PeerResource.WifiClient g)
        [if mode_code mc = mode_code mh then 0 else 1]).2
      = [Ev.wr (mode_code mc),
         Ev.rd (if mode_code mc = mode_code mh then 0 else 1)]) ∧
    (((confirm_mode mc (PeerResource.WifiClient g)
        [if mode_code mc = mode_code mh then 0 else 1]).1 = Except.ok () ∧
      (confirm_mode mh hpr [mode_code mc]).1 = Except.ok ())
      ↔ mc.isSend ≠ mh.isSend) ∧
    (mc.isSend = mh.isSend →
      (confirm_mode mc (PeerResource.WifiClient g)
          [if mode_code mc = mode_code mh then 0 else 1]).1
        = Except.error (bothMsg (mode_code mc)) ∧
      (confirm_mode mh hpr [mode_code mc]).1
        = Except.error (bothMsg (mode_code mh))) ∧
    (bothMsg 1 = "Both ends of the transfer selected send" ∧
     bothMsg 0 = "Both ends of the transfer selected receive") := by
  cases hpr
  case WifiClient s => exact absurd hh (by simp [PeerResource.isConnector])
  all_goals (
    cases mc <;> cases mh <;>
      simp [confirm_mode, mode_code, Mode.isSend, bothMsg])

/-- C2 witness: the mode-leg theorem applied with both sides in Send mode,
the host on a Windows hotspot. -/
theorem confirm_mode_protocol_witness :
    (confirm_mode (Mode.Send []) PeerResource.WindowsHotspot
        [mode_code (Mode.Send [["/", "a.txt"]])]).2
      = [Ev.rd (mode_code (Mode.Send [["/", "a.txt"]])),
         Ev.wr (if mode_code (Mode.Send [["/", "a.txt"]])
                  = mode_code (Mode.Send []) then 0 else 1)] :=
  (confirm_mode_protocol (Mode.Send [["/", "a.txt"]]) (Mode.Send [])
    "192.168.137.1" PeerResource.WindowsHotspot rfl).1

/-- Rust `file.parent().or(Some(Path::new(""))).unwrap()` on the component
view: drop the final component; the root-only, single-component and empty
paths all collapse to the empty path, exactly as `.or(Path::new(""))` does. -/
def parent (p : FsPath) : FsPath := p.dropLast

/-- One iteration of the common-folder loop in start_transfer (lib.rs lines
229-240): replace the candidate by the file's parent only when that parent
has strictly fewer components. -/
def folderStep (common : FsPath) (file : FsPath) : FsPath :=
  let current := parent file
  if current.length < common.length then current else common

/-- The common-folder computation of start_transfer: start from the parent of
file 0 and fold the loop body over the remaining files.  (The source guards
the loop with `files.len() > 1`, which is the same as folding over an empty
remainder.) -/
def common_folder (f0 : FsPath) (rest : List FsPath) : FsPath :=
  rest.foldl folderStep (parent f0)

/-- The `files[0]` access of the common-folder code, made total: `none`
models the out-of-bounds panic on an empty file list. -/
def common_folder_of (files : List FsPath) : Option FsPath :=
  match files with
  | [] => none
  | f0 :: rest => some (common_folder f0 rest)

/-- The candidate never grows while the loop folds. -/
theorem foldl_folderStep_init_le (l : List FsPath) (c : FsPath) :
    (l.foldl folderStep c).length ≤ c.length := by
  induction l generalizing c with
  | nil => exact Nat.le_refl _
  | cons f t ih =>
    have hstep : (folderStep c f).length ≤ c.length := by
      simp only [folderStep]
      split
      · omega
      · exact Nat.le_refl _
    exact Nat.le_trans (ih (folderStep c f)) hstep

/-- If no later parent is strictly shorter than the candidate, the fold
keeps the candidate: ties keep the incumbent. -/
theorem foldl_folderStep_keep (l : List FsPath) (c : FsPath)
    (h : ∀ f ∈ l, ¬ ((parent f).length < c.length)) :
    l.foldl folderStep c = c := by
  induction l with
  | nil => rfl
  | cons f t ih =>
    have hf : folderStep c f = c := by
      simp only [folderStep]
      rw [if_neg (h f (List.mem_cons_self f t))]
    rw [List.foldl_cons, hf]
    exact ih fun g hg => h g (List.mem_cons_of_mem f hg)

/-- The fold returns the first entry of `c :: l.map parent` that is strictly
shorter than everything before it and no longer than everything after it. -/
theorem foldl_folderStep_first_min (l : List FsPath) (c : FsPath) :
    ∃ l1 l2, c :: l.map parent = l1 ++ (l.foldl folderStep c) :: l2 ∧
      (∀ p ∈ l1, (l.foldl folderStep c).length < p.length) ∧
      (∀ p ∈ l2, (l.foldl folderStep c).length ≤ p.length) := by
  induction l generalizing c with
  | nil => exact ⟨[], [], rfl, by simp, by simp⟩
  | cons f t ih =>
    by_cases h : (parent f).length < c.length
    · have hstep : folderStep c f = parent f := by
        simp only [folderStep]; rw [if_pos h]
      simp only [List.map_cons, List.foldl_cons, hstep]
      obtain ⟨l1, l2, heq, h1, h2⟩ := ih (parent f)
      refine ⟨c :: l1, l2, ?_, ?_, h2⟩
      · simp only [List.cons_append]
        rw [← heq]
      · intro p hp
        rcases List.mem_cons.mp hp with hc | hl1
        · subst hc
          have hle := foldl_folderStep_init_le t (parent f)
          omega
        · exact h1 p hl1
    · have hstep : folderStep c f = c := by
        simp only [folderStep]; rw [if_neg h]
      simp only [List.map_cons, List.foldl_cons, hstep]
      obtain ⟨l1, l2, heq, h1, h2⟩ := ih c
      cases l1 with
      | nil =>
        simp only [List.nil_append] at heq
        have hr : t.foldl folderStep c = c :=
          ((List.cons.injEq _ _ _ _).mp heq).1.symm
        have hl2 : t.map parent = l2 := ((List.cons.injEq _ _ _ _).mp heq).2
        refine ⟨[], parent f :: l2, ?_, by simp, ?_⟩
        · simp only [hr, List.nil_append]
          rw [hl2]
        · intro p hp
          rcases List.mem_cons.mp hp with hpf | hl
          · subst hpf
            rw [hr]
            omega
          · exact h2 p hl
      | cons a l1' =>
        simp only [List.cons_append] at heq
        have ha : a = c := ((List.cons.injEq _ _ _ _).mp heq).1.symm
        have htail : t.map parent = l1' ++ (t.foldl folderStep c) :: l2 :=
          ((List.cons.injEq _ _ _ _).mp heq).2
        refine ⟨c :: parent f :: l1', l2, ?_, ?_, h2⟩
        · simp only [List.cons_append]
          rw [htail]
        · intro p hp
          have hc : (t.foldl folderStep c).length < c.length := by
            have := h1 a (List.mem_cons_self a l1')
            rw [ha] at this; exact this
          rcases List.mem_cons.mp hp with h' | hp'
          · subst h'; exact hc
          · rcases List.mem_cons.mp hp' with h' | hp''
            · subst h'; omega
            · exact h1 p (List.mem_cons_of_mem a hp'')

/-- C3: the computed common ancestor is the first file parent that is
strictly shorter than every parent seen before it and no longer than any
parent after it (so replacement happens only on strictly fewer components
and ties keep the incumbent); it is minimal among all the files' parents; if
no later parent is strictly shorter than file 0's parent, the candidate
stays file 0's parent; and on /a/b/c.txt, /a/b/d.txt, /a/e.txt the computed
ancestor is /a. -/
theorem common_folder_spec (f0 : FsPath) (rest : List FsPath) :
    (∃ l1 l2, (f0 :: rest).map parent = l1 ++ (common_folder f0 rest) :: l2 ∧
      (∀ p ∈ l1, (common_folder f0 rest).length < p.length) ∧
      (∀ p ∈ l2, (common_folder f0 rest).length ≤ p.length)) ∧
    (∀ p ∈ (f0 :: rest).map parent, (common_folder f0 rest).length ≤ p.length) ∧
    ((∀ f ∈ rest, ¬ ((parent f).length < (parent f0).length)) →
      common_folder f0 rest = parent f0) ∧
    common_folder_of [["/", "a", "b", "c.txt"], ["/", "a", "b", "d.txt"],
        ["/", "a", "e.txt"]] = some ["/", "a"] := by
  obtain ⟨l1, l2, heq, h1, h2⟩ := foldl_folderStep_first_min rest (parent f0)
  have hmain : (f0 :: rest).map parent
      = l1 ++ (common_folder f0 rest) :: l2 := by
    simpa only [List.map_cons, common_folder] using heq
  refine ⟨⟨l1, l2, hmain, h1, h2⟩, ?_, ?_, by decide⟩
  · intro p hp
    rw [hmain] at hp
    rcases List.mem_append.mp hp with hl | hr
    · exact Nat.le_of_lt (h1 p hl)
    · rcases List.mem_cons.mp hr with h' | h'
      · subst h'; exact Nat.le_refl _
      · exact h2 p h'
  · exact foldl_folderStep_keep rest (parent f0)

/-- The two mutex-guarded slots of the Transfer record that teardown
touches: the PeerResource slot and the SSID slot. -/
structure SharedState where
  hotspot : Option PeerResource
  ssid : Option String
deriving DecidableEq, Repr

/-- One observable teardown action, in the order clean_up_transfer performs
them. -/
inductive TeardownStep
  | tcpShutdown (ok : Bool)
  | outputMsg (msg : String)
  | stopHotspot (ssid : Option String) (ok : Bool)
  | clearHotspotSlot
  | enableUI
deriving DecidableEq, Repr

/-- shut_down_hotspot from lib.rs: reads both slots and calls
network::stop_hotspot with the SSID slot's contents; the result — ok or
error — is only printed, never propagated.  `stopOk` is the oracle for
whether the external nmcli teardown succeeded. -/
def shut_down_hotspot (st : SharedState) (stopOk : Bool) : List TeardownStep :=
  [TeardownStep.stopHotspot st.ssid stopOk]

/-- clean_up_transfer from lib.rs: best-effort TCP shutdown (a failure only
prints a message), best-effort hotspot stop via the SSID slot, clearing the
PeerResource slot, re-enabling the UI.  `stream` is `none` when no TCP
stream exists, otherwise `some ok` where `ok` says whether shutdown
succeeded.  The function is total: no error value exists to propagate. -/
def clean_up_transfer (stream : Option Bool) (st : SharedState)
    (stopOk : Bool) : SharedState × List TeardownStep :=
  let tcpSteps : List TeardownStep :=
    match stream with
    | some ok =>
      if ok then [TeardownStep.tcpShutdown true]
      else [TeardownStep.tcpShutdown false,
            TeardownStep.outputMsg "Failed to shut down TCP stream."]
    | none => []
  let hotspotSteps := shut_down_hotspot st stopOk
  ({ st with hotspot := none },
    tcpSteps ++ hotspotSteps
      ++ [TeardownStep.clearHotspotSlot, TeardownStep.enableUI])

/-- C4 counterexample: the claim says both slots are empty after teardown,
but clean_up_transfer never clears the SSID slot: starting from a state
whose SSID slot holds "flyingCarpet_1234", after the call the SSID slot
still holds it. -/
theorem clean_up_transfer_ssid_not_cleared :
    (clean_up_transfer (some true)
        { hotspot := some PeerResource.LinuxHotspot,
          ssid := some "flyingCarpet_1234" } true).1.ssid
      = some "flyingCarpet_1234" ∧
    ¬ (clean_up_transfer (some true)
        { hotspot := some PeerResource.LinuxHotspot,
          ssid := some "flyingCarpet_1234" } true).1.ssid = none := by
  constructor
  · rfl
  · intro h
    simp [clean_up_transfer] at h

/-- C4 (amended): teardown is total — it never returns or propagates an
error — and on every input it performs every step regardless of earlier
failures (TCP shutdown attempted exactly when a stream exists, hotspot stop
attempted with the SSID slot's value even when it fails, the PeerResource
slot cleared, the UI re-enabled); the PeerResource slot is empty after
every call while the SSID slot is left unchanged; calling it twice is safe
and leaves the PeerResource slot empty both times. -/
theorem clean_up_transfer_spec (stream : Option Bool) (st : SharedState)
    (stopOk : Bool) :
    ((clean_up_transfer stream st stopOk).1.hotspot = none) ∧
    ((clean_up_transfer stream st stopOk).1.ssid = st.ssid) ∧
    (TeardownStep.stopHotspot st.ssid stopOk
      ∈ (clean_up_transfer stream st stopOk).2) ∧
    (TeardownStep.clearHotspotSlot ∈ (clean_up_transfer stream st stopOk).2) ∧
    (TeardownStep.enableUI ∈ (clean_up_transfer stream st stopOk).2) ∧
    (∀ ok, stream = some ok →
      TeardownStep.tcpShutdown ok ∈ (clean_up_transfer stream st stopOk).2) ∧
    (∀ stream' stopOk',
      (clean_up_transfer stream'
          (clean_up_transfer stream st stopOk).1 stopOk').1.hotspot = none ∧
      (clean_up_transfer stream'
          (clean_up_transfer stream st stopOk).1 stopOk').1.ssid = st.ssid) := by
  refine ⟨rfl, rfl, ?_, ?_, ?_, ?_, fun stream' stopOk' => ⟨rfl, rfl⟩⟩
  · simp [clean_up_transfer, shut_down_hotspot]
  · simp [clean_up_transfer]
  · simp [clean_up_transfer]
  · intro ok hok
    subst hok
    cases ok <;> simp [clean_up_transfer]

/-- C4 witness: the amended teardown theorem at a concrete state with a
failing TCP shutdown and a failing hotspot stop. -/
theorem clean_up_transfer_spec_witness :
    (clean_up_transfer (some false)
        { hotspot := some (PeerResource.WifiClient "192.168.137.1"),
          ssid := some "flyingCarpet_1234" } false).1.hotspot = none :=
  (clean_up_transfer_spec (some false)
    { hotspot := some (PeerResource.WifiClient "192.168.137.1"),
      ssid := some "flyingCarpet_1234" } false).1

/-- A TCP stream handle; only its identity matters to the orchestrator. -/
structure TcpStream where
  id : Nat
deriving DecidableEq, Repr

/-- What start_tcp does for each PeerResource variant (lib.rs lines
332-350): the connector dials the gateway, a hotspot side binds and
listens. -/
inductive TcpAction
  | connect (host : String) (port : Nat)
  | listenAccept (bindHost : String) (port : Nat)
deriving DecidableEq, Repr

/-- start_tcp from lib.rs in plan form: the action it takes, the UI
messages it emits, and the stream it produces.  `connectResult` is the
stream a successful connect would yield; `incoming` is the listener's queue
of (stream, remote address) pairs, of which only the first is accepted and
its address discarded. -/
def start_tcp (peer_resource : PeerResource) (connectResult : TcpStream)
    (incoming : List (TcpStream × String)) :
    TcpAction × List String × Option TcpStream :=
  match peer_resource with
  | .WifiClient gateway =>
    (TcpAction.connect gateway 3290, [], some connectResult)
  | .WindowsHotspot | .LinuxHotspot =>
    (TcpAction.listenAccept "0.0.0.0" 3290,
      ["Waiting for connection...", "Connection accepted"],
      (incoming.head?).map Prod.fst)

/-- The port of a TcpAction. -/
def TcpAction.port : TcpAction → Nat
  | .connect _ p => p
  | .listenAccept _ p => p

/-- One post-handshake wire operation of the orchestrator, abstracting the
body of the per-file send and receive calls. -/
inductive WireOp
  | wroteNumFiles (n : Nat)
  | sentFile (i : Nat)
  | readNumFiles (n : Nat)
  | receivedFile (i : Nat) (last : Bool)
deriving DecidableEq, Repr

/-- Oracles for every fallible step start_transfer takes, in source order.
Each field stands for the outcome of the corresponding await in lib.rs. -/
structure TransferEnv where
  bluetoothResult : Except String (String × String × PeerResource)
  connectResult : Except String PeerResource
  tcpResult : PeerResource → Except String TcpStream
  versionResult : Except String Unit
  modeResult : Except String Unit
  writeNumResult : Except String Unit
  sendFileResult : Nat → Except String Unit
  readNumResult : Except String Nat
  receiveFileResult : Nat → Except String Unit

/-- The peer-resource negotiation at the top of start_transfer: Bluetooth
when enabled, otherwise get_key_and_ssid + network::connect_to_peer. -/
def negotiated (using_bluetooth : Bool) (env : TransferEnv) :
    Except String PeerResource :=
  if using_bluetooth then
    match env.bluetoothResult with
    | Except.ok (_ssid, _pw, p) => Except.ok p
    | Except.error e => Except.error e
  else env.connectResult

/-- The sender's per-file loop (lib.rs lines 243-262): iterate the file
indices in order, recording each send_file call, stopping at the first
failure. -/
def send_files (sendFileResult : Nat → Except String Unit) :
    List Nat → List WireOp × Except String Unit
  | [] => ([], Except.ok ())
  | i :: rest =>
    match sendFileResult i with
    | Except.ok _ =>
      let r := send_files sendFileResult rest
      (WireOp.sentFile i :: r.1, r.2)
    | Except.error e => ([WireOp.sentFile i], Except.error e)

/-- The receiver's per-file loop (lib.rs lines 274-285): iterate
`0..num_files`, the iteration with index `num_files - 1` carrying the
last-file flag, stopping at the first failing receive_file. -/
def receive_files (receiveFileResult : Nat → Except String Unit)
    (num_files : Nat) : List Nat → List WireOp × Except String Unit
  | [] => ([], Except.ok ())
  | i :: rest =>
    let last_file : Bool := decide (i = num_files - 1)
    match receiveFileResult i with
    | Except.ok _ =>
      let r := receive_files receiveFileResult num_files rest
      (WireOp.receivedFile i last_file :: r.1, r.2)
    | Except.error e =>
      ([WireOp.receivedFile i last_file], Except.error e)

/-- What start_transfer leaves behind: its Option<TcpStream> return value,
the final contents of the shared hotspot slot, the post-handshake wire
trace, and the common folder the Send branch computed (none when the Send
branch never reached that code). -/
structure TransferOutcome where
  stream : Option TcpStream
  hotspot : Option PeerResource
  wire : List WireOp
  common : Option FsPath
deriving DecidableEq, Repr

/-- start_transfer from lib.rs (lines 96-292), with every fallible await
replaced by its oracle in `env` and the shared hotspot slot threaded
explicitly.  Control flow follows the source: negotiate the peer resource
(returning None on failure), start TCP (None on failure), confirm version
then mode (returning Some(stream) on failure, slot untouched), store the
peer resource into the slot, then run the Send or Receive branch, always
returning Some(stream). -/
def start_transfer (using_bluetooth : Bool) (mode : Mode)
    (env : TransferEnv) (hotspot0 : Option PeerResource) : TransferOutcome :=
  match negotiated using_bluetooth env with
  | Except.error _ =>
    { stream := none, hotspot := hotspot0, wire := [], common := none }
  | Except.ok peer_resource =>
    match env.tcpResult peer_resource with
    | Except.error _ =>
      { stream := none, hotspot := hotspot0, wire := [], common := none }
    | Except.ok stream =>
      match env.versionResult with
      | Except.error _ =>
        { stream := some stream, hotspot := hotspot0, wire := [],
          common := none }
      | Except.ok _ =>
        match env.modeResult with
        | Except.error _ =>
          { stream := some stream, hotspot := hotspot0, wire := [],
            common := none }
        | Except.ok _ =>
          -- store the hotspot in tauri's state
          let hotspot1 := some peer_resource
          match mode with
          | Mode.Send files =>
            -- tell receiving end how many files we're sending
            match env.writeNumResult with
            | Except.error _ =>
              { stream := some stream, hotspot := hotspot1, wire := [],
                common := none }
            | Except.ok _ =>
              -- find folder common to all files, then send them
              let cf := common_folder_of files
              let r := send_files env.sendFileResult
                (List.range files.length)
              { stream := some stream, hotspot := hotspot1,
                wire := WireOp.wroteNumFiles files.length :: r.1,
                common := cf }
          | Mode.Receive _ =>
            -- find out how many files we're receiving, then receive them
            match env.readNumResult with
            | Except.error _ =>
              { stream := some stream, hotspot := hotspot1, wire := [],
                common := none }
            | Except.ok num_files =>
              let r := receive_files env.receiveFileResult num_files
                (List.range num_files)
              { stream := some stream, hotspot := hotspot1,
                wire := WireOp.readNumFiles num_files :: r.1,
                common := none }

/-- Every operation the sender's per-file loop emits is a per-file send. -/
theorem send_files_ops (f : Nat → Except String Unit) (l : List Nat) :
    ∀ op ∈ (send_files f l).1, ∃ i, i ∈ l ∧ op = WireOp.sentFile i := by
  induction l with
  | nil => intro op hop; simp [send_files] at hop
  | cons i rest ih =>
    intro op hop
    simp only [send_files] at hop
    rcases hres : f i with e | u <;> rw [hres] at hop
    · simp only [List.mem_singleton] at hop
      exact ⟨i, List.mem_cons_self i rest, hop⟩
    · rcases List.mem_cons.mp hop with h' | h'
      · exact ⟨i, List.mem_cons_self i rest, h'⟩
      · obtain ⟨j, hj, hop'⟩ := ih op h'
        exact ⟨j, List.mem_cons_of_mem i hj, hop'⟩

/-- When every receive succeeds, the receiver's loop visits each index once,
in order, flagging exactly the last one. -/
theorem receive_files_all_ok (f : Nat → Except String Unit) (n : Nat)
    (l : List Nat) (h : ∀ i ∈ l, f i = Except.ok ()) :
    receive_files f n l
      = (l.map (fun i => WireOp.receivedFile i (decide (i = n - 1))),
         Except.ok ()) := by
  induction l with
  | nil => rfl
  | cons i rest ih =>
    have hi : f i = Except.ok () := h i (List.mem_cons_self i rest)
    have hrest := ih fun j hj => h j (List.mem_cons_of_mem i hj)
    simp only [receive_files, hi, hrest, List.map_cons]

/-- C5: start_transfer writes the PeerResource into the shared hotspot slot
only after both handshake legs succeed; on every earlier exit — negotiation
failure, TCP failure, version error, mode error — the slot keeps its
initial value, and after both legs succeed it holds the negotiated
resource no matter how the streaming phase goes. -/
theorem start_transfer_hotspot_slot (ub : Bool) (mode : Mode)
    (env : TransferEnv) (h0 : Option PeerResource) :
    (∀ e, negotiated ub env = Except.error e →
      (start_transfer ub mode env h0).hotspot = h0) ∧
    (∀ p e, negotiated ub env = Except.ok p →
      env.tcpResult p = Except.error e →
      (start_transfer ub mode env h0).hotspot = h0) ∧
    (∀ p s e, negotiated ub env = Except.ok p →
      env.tcpResult p = Except.ok s →
      env.versionResult = Except.error e →
      (start_transfer ub mode env h0).hotspot = h0) ∧
    (∀ p s e, negotiated ub env = Except.ok p →
      env.tcpResult p = Except.ok s →
      env.versionResult = Except.ok () →
      env.modeResult = Except.error e →
      (start_transfer ub mode env h0).hotspot = h0) ∧
    (∀ p s, negotiated ub env = Except.ok p →
      env.tcpResult p = Except.ok s →
      env.versionResult = Except.ok () →
      env.modeResult = Except.ok () →
      (start_transfer ub mode env h0).hotspot = some p) := by
  refine ⟨?_, ?_, ?_, ?_, ?_⟩
  · intro e hneg
    simp [start_transfer, hneg]
  · intro p e hneg htcp
    simp [start_transfer, hneg, htcp]
  · intro p s e hneg htcp hv
    simp [start_transfer, hneg, htcp, hv]
  · intro p s e hneg htcp hv hm
    simp [start_transfer, hneg, htcp, hv, hm]
  · intro p s hneg htcp hv hm
    cases mode with
    | Send files =>
      rcases hw : env.writeNumResult with e | u <;>
        simp [start_transfer, hneg, htcp, hv, hm, hw]
    | Receive dir =>
      rcases hr : env.readNumResult with e | n <;>
        simp [start_transfer, hneg, htcp, hv, hm, hr]

/-- C5 witness: the slot theorem at a concrete environment whose version
leg fails, applied to the version-error conjunct. -/
theorem start_transfer_hotspot_slot_witness :
    (start_transfer false (Mode.Receive ["/", "r"])
        { bluetoothResult := Except.error "unused",
          connectResult := Except.ok (PeerResource.WifiClient "192.168.137.1"),
          tcpResult := fun _ => Except.ok ⟨7⟩,
          versionResult := Except.error "version mismatch",
          modeResult := Except.ok (),
          writeNumResult := Except.ok (),
          sendFileResult := fun _ => Except.ok (),
          readNumResult := Except.ok 3,
          receiveFileResult := fun _ => Except.ok () }
        (some PeerResource.LinuxHotspot)).hotspot
      = some PeerResource.LinuxHotspot :=
  (start_transfer_hotspot_slot false (Mode.Receive ["/", "r"])
    { bluetoothResult := Except.error "unused",
      connectResult := Except.ok (PeerResource.WifiClient "192.168.137.1"),
      tcpResult := fun _ => Except.ok ⟨7⟩,
      versionResult := Except.error "version mismatch",
      modeResult := Except.ok (),
      writeNumResult := Except.ok (),
      sendFileResult := fun _ => Except.ok (),
      readNumResult := Except.ok 3,
      receiveFileResult := fun _ => Except.ok () }
    (some PeerResource.LinuxHotspot)).2.2.1
    (PeerResource.WifiClient "192.168.137.1") ⟨7⟩ "version mismatch"
    rfl rfl rfl

/-- C10: start_transfer returns None exactly when it fails before a TCP
stream exists (negotiation failure or TCP failure); once start_tcp
returned a stream, every exit path returns Some of that stream. -/
theorem start_transfer_stream_return (ub : Bool) (mode : Mode)
    (env : TransferEnv) (h0 : Option PeerResource) :
    ((start_transfer ub mode env h0).stream = none ↔
      (∃ e, negotiated ub env = Except.error e) ∨
      (∃ p e, negotiated ub env = Except.ok p ∧
        env.tcpResult p = Except.error e)) ∧
    (∀ p s, negotiated ub env = Except.ok p →
      env.tcpResult p = Except.ok s →
      (start_transfer ub mode env h0).stream = some s) := by
  have hlater : ∀ p s, negotiated ub env = Except.ok p →
      env.tcpResult p = Except.ok s →
      (start_transfer ub mode env h0).stream = some s := by
    intro p s hneg htcp
    rcases hv : env.versionResult with e | u
    · simp [start_transfer, hneg, htcp, hv]
    · rcases hm : env.modeResult with e | u
      · simp [start_transfer, hneg, htcp, hv, hm]
      · cases mode with
        | Send files =>
          rcases hw : env.writeNumResult with e | u <;>
            simp [start_transfer, hneg, htcp, hv, hm, hw]
        | Receive dir =>
          rcases hr : env.readNumResult with e | n <;>
            simp [start_transfer, hneg, htcp, hv, hm, hr]
  refine ⟨⟨?_, ?_⟩, hlater⟩
  · intro hnone
    rcases hneg : negotiated ub env with e | p
    · exact Or.inl ⟨e, rfl⟩
    · rcases htcp : env.tcpResult p with e | s
      · exact Or.inr ⟨p, e, rfl, htcp⟩
      · rw [hlater p s hneg htcp] at hnone
        exact absurd hnone (by simp)
  · intro h
    rcases h with ⟨e, hneg⟩ | ⟨p, e, hneg, htcp⟩
    · simp [start_transfer, hneg]
    · simp [start_transfer, hneg, htcp]

/-- C10 witness: the stream theorem at a concrete environment whose TCP
setup fails, applied to the None-characterization. -/
theorem start_transfer_stream_return_witness :
    (start_transfer false (Mode.Send [["/", "a.txt"]])
        { bluetoothResult := Except.error "unused",
          connectResult := Except.ok (PeerResource.WifiClient "192.168.137.1"),
          tcpResult := fun _ => Except.error "connection refused",
          versionResult := Except.ok (),
          modeResult := Except.ok (),
          writeNumResult := Except.ok (),
          sendFileResult := fun _ => Except.ok (),
          readNumResult := Except.ok 3,
          receiveFileResult := fun _ => Except.ok () }
        none).stream = none :=
  (start_transfer_stream_return false (Mode.Send [["/", "a.txt"]])
    { bluetoothResult := Except.error "unused",
      connectResult := Except.ok (PeerResource.WifiClient "192.168.137.1"),
      tcpResult := fun _ => Except.error "connection refused",
      versionResult := Except.ok (),
      modeResult := Except.ok (),
      writeNumResult := Except.ok (),
      sendFileResult := fun _ => Except.ok (),
      readNumResult := Except.ok 3,
      receiveFileResult := fun _ => Except.ok () }
    none).1.mpr
    (Or.inr ⟨PeerResource.WifiClient "192.168.137.1", "connection refused",
      rfl, rfl⟩)

/-- C6: start_tcp uses the fixed port 3290 for every PeerResource variant;
the connector dials gateway:3290 with no UI message; each hotspot variant
binds 0.0.0.0:3290, emits "Waiting for connection...", accepts exactly the
first inbound connection and discards its address. -/
theorem start_tcp_spec (g : String) (c : TcpStream)
    (inc : List (TcpStream × String)) (s : TcpStream) (a : String)
    (rest : List (TcpStream × String)) :
    (start_tcp (PeerResource.WifiClient g) c inc
      = (TcpAction.connect g 3290, [], some c)) ∧
    (start_tcp PeerResource.WindowsHotspot c ((s, a) :: rest)
      = (TcpAction.listenAccept "0.0.0.0" 3290,
         ["Waiting for connection...", "Connection accepted"], some s)) ∧
    (start_tcp PeerResource.LinuxHotspot c ((s, a) :: rest)
      = (TcpAction.listenAccept "0.0.0.0" 3290,
         ["Waiting for connection...", "Connection accepted"], some s)) ∧
    (∀ pr : PeerResource, (start_tcp pr c inc).1.port = 3290) ∧
    ("Waiting for connection..." ∈ (start_tcp PeerResource.WindowsHotspot c inc).2.1) ∧
    ("Waiting for connection..." ∈ (start_tcp PeerResource.LinuxHotspot c inc).2.1) := by
  refine ⟨rfl, rfl, rfl, ?_, ?_, ?_⟩
  · intro pr
    cases pr <;> rfl
  · simp [start_tcp]
  · simp [start_tcp]

/-- C8: immediately after a successful handshake the sender's first wire
operation is the single u64 carrying its file-list length, emitted before
any per-file data; the receiver reads a u64 N and, when every per-file
receive succeeds, runs its loop exactly N times in index order, the
iteration with index N-1 being the only one flagged as the last file. -/
theorem start_transfer_file_count (ub : Bool) (env : TransferEnv)
    (h0 : Option PeerResource) (files : List FsPath) (dir : FsPath) :
    (∀ p s, negotiated ub env = Except.ok p →
      env.tcpResult p = Except.ok s →
      env.versionResult = Except.ok () →
      env.modeResult = Except.ok () →
      env.writeNumResult = Except.ok () →
      (start_transfer ub (Mode.Send files) env h0).wire
        = WireOp.wroteNumFiles files.length
            :: (send_files env.sendFileResult (List.range files.length)).1 ∧
      ∀ op ∈ (send_files env.sendFileResult (List.range files.length)).1,
        ∃ i, i < files.length ∧ op = WireOp.sentFile i) ∧
    (∀ p s n, negotiated ub env = Except.ok p →
      env.tcpResult p = Except.ok s →
      env.versionResult = Except.ok () →
      env.modeResult = Except.ok () →
      env.readNumResult = Except.ok n →
      (∀ i, i < n → env.receiveFileResult i = Except.ok ()) →
      (start_transfer ub (Mode.Receive dir) env h0).wire
        = WireOp.readNumFiles n
            :: (List.range n).map
                 (fun i => WireOp.receivedFile i (decide (i = n - 1)))) := by
  constructor
  · intro p s hneg htcp hv hm hw
    constructor
    · simp [start_transfer, hneg, htcp, hv, hm, hw]
    · intro op hop
      obtain ⟨i, hi, hop'⟩ :=
        send_files_ops env.sendFileResult (List.range files.length) op hop
      exact ⟨i, List.mem_range.mp hi, hop'⟩
  · intro p s n hneg htcp hv hm hr hall
    have hloop := receive_files_all_ok env.receiveFileResult n (List.range n)
      fun i hi => hall i (List.mem_range.mp hi)
    simp [start_transfer, hneg, htcp, hv, hm, hr, hloop]

/-- C8 witness: the file-count theorem's receiver half at a concrete
environment announcing three files, all receives succeeding. -/
theorem start_transfer_file_count_witness :
    (start_transfer false (Mode.Receive ["/", "r"])
        { bluetoothResult := Except.error "unused",
          connectResult := Except.ok (PeerResource.WifiClient "192.168.137.1"),
          tcpResult := fun _ => Except.ok ⟨7⟩,
          versionResult := Except.ok (),
          modeResult := Except.ok (),
          writeNumResult := Except.ok (),
          sendFileResult := fun _ => Except.ok (),
          readNumResult := Except.ok 3,
          receiveFileResult := fun _ => Except.ok () }
        none).wire
      = [WireOp.readNumFiles 3, WireOp.receivedFile 0 false,
         WireOp.receivedFile 1 false, WireOp.receivedFile 2 true] := by
  have h := (start_transfer_file_count false
    { bluetoothResult := Except.error "unused",
      connectResult := Except.ok (PeerResource.WifiClient "192.168.137.1"),
      tcpResult := fun _ => Except.ok ⟨7⟩,
      versionResult := Except.ok (),
      modeResult := Except.ok (),
      writeNumResult := Except.ok (),
      sendFileResult := fun _ => Except.ok (),
      readNumResult := Except.ok 3,
      receiveFileResult := fun _ => Except.ok () }
    none [] ["/", "r"]).2
    (PeerResource.WifiClient "192.168.137.1") ⟨7⟩ 3
    rfl rfl rfl rfl rfl (fun i _ => rfl)
  rw [h]
  rfl

/-- C9: under the data model's precondition that a Send-mode file list is
non-empty, the `files[0]` and `files[1..]` accesses of the common-folder
code are in bounds: the total model returns some value (the panic branch is
the empty-list case only), and the Send branch of start_transfer records a
computed common folder whenever it reaches that code. -/
theorem start_transfer_common_inbounds (files : List FsPath)
    (h : files ≠ []) :
    (∃ f0 rest, files = f0 :: rest ∧
      common_folder_of files = some (common_folder f0 rest)) ∧
    (common_folder_of files).isSome = true ∧
    (∀ ub env h0 p s, negotiated ub env = Except.ok p →
      env.tcpResult p = Except.ok s →
      env.versionResult = Except.ok () →
      env.modeResult = Except.ok () →
      env.writeNumResult = Except.ok () →
      (start_transfer ub (Mode.Send files) env h0).common
        = common_folder_of files ∧
      (start_transfer ub (Mode.Send files) env h0).common ≠ none) := by
  obtain ⟨f0, rest, hfiles⟩ := List.exists_cons_of_ne_nil h
  subst hfiles
  refine ⟨⟨f0, rest, rfl, rfl⟩, rfl, ?_⟩
  intro ub env h0 p s hneg htcp hv hm hw
  constructor
  · simp [start_transfer, hneg, htcp, hv, hm, hw]
  · simp [start_transfer, hneg, htcp, hv, hm, hw, common_folder_of]

/-- C9 witness: the in-bounds theorem at the one-file list ["/", "a.txt"]. -/
theorem start_transfer_common_inbounds_witness :
    (common_folder_of [["/", "a.txt"]]).isSome = true :=
  (start_transfer_common_inbounds [["/", "a.txt"]] (by decide)).2.1

/-- C7: the Linux role decision hosts against Android, iOS and macOS peers,
joins against Windows, and between two Linux machines joins when sending
and hosts when receiving; hence when two Linux endpoints run complementary
modes, each naming the other as a Linux peer, exactly one of them — the
receiver — hosts. -/
theorem is_hosting_spec :
    (∀ m : Mode, is_hosting Peer.Android m = true ∧
      is_hosting Peer.IOS m = true ∧
      is_hosting Peer.MacOS m = true ∧
      is_hosting Peer.Windows m = false) ∧
    (∀ (fs : List FsPath) (d : FsPath),
      is_hosting Peer.Linux (Mode.Send fs) = false ∧
      is_hosting Peer.Linux (Mode.Receive d) = true) ∧
    (∀ (fs : List FsPath) (d : FsPath),
      is_hosting Peer.Linux (Mode.Send fs)
          ≠ is_hosting Peer.Linux (Mode.Receive d) ∧
      is_hosting Peer.Linux (Mode.Receive d) = true) := by
  refine ⟨?_, ?_, ?_⟩
  · intro m
    cases m <;> simp [is_hosting]
  · intro fs d
    exact ⟨rfl, rfl⟩
  · intro fs d
    exact ⟨by simp [is_hosting], rfl⟩

end FlyingCarpet
